import Mathlib

/-!
Shallow embedding of the rclone union-backend selection policies
"existing path, least number of objects" (eplno) and
"existing path, least free space" (eplfs),
from backend/union/policy/eplno.go and its sibling eplfs file.

Modelling conventions:
* Go's (value, error) return pairs become `Option α × Option PolicyError`
  (a nil pointer / nil interface is `none`, a nil error is `none`).
* The in-place shuffle performed at the top of each reduction is modelled
  by letting the reduction take the candidate list in post-shuffle order;
  theorems quantify over all lists (hence all permutations), and claims
  about the pre-shuffle input carry a `List.Perm` hypothesis.
* The existence filter (EpAll, not part of the two policy files) is an
  external collaborator and is passed in as an abstract function
  returning `Except PolicyError (List _)`.
-/

/-- The int64 sentinel `math.MaxInt64` with which both scans start. -/
def maxInt64 : Int := 9223372036854775807

/-- Result of one capacity-metric query (`GetNumObjects` / `GetFreeSpace`):
either the reported int64 value or a (soft) failure. -/
inductive QueryResult where
  | ok (v : Int)
  | err
deriving DecidableEq, Repr

/-- An upstream handle (`upstream.Fs`): its name, the outcomes of its two
metric queries, and the configured `Opt.MinFreeSpace` threshold. -/
structure UpstreamFs where
  name : String
  numObjectsQuery : QueryResult
  freeSpaceQuery : QueryResult
  minFreeSpace : Int
deriving DecidableEq, Repr

/-- A filesystem entry (`upstream.Entry`): an object identity plus the
`UpstreamFs()` back-reference to the upstream that produced it. -/
structure Entry where
  entryId : Nat
  upstreamFs : UpstreamFs
deriving DecidableEq, Repr

/-- Modelled from the spec: `upstream.Fs.GetNumObjects` is not under src/
(only its caller is). Per the spec and the log line in `lno`
("treating as 0"), a failed object-count query is treated as count 0. -/
def getNumObjects (u : UpstreamFs) : Int :=
  match u.numObjectsQuery with
  | .ok v => v
  | .err => 0

/-- Modelled from the spec: `upstream.Fs.GetFreeSpace` is not under src/
(only its caller is). Per the spec and the log line in `lfs`
("treating as infinite"), a failed free-space query is treated as
effectively infinite free space, i.e. the largest int64 value. -/
def getFreeSpace (u : UpstreamFs) : Int :=
  match u.freeSpaceQuery with
  | .ok v => v
  | .err => maxInt64

/-- The errors this core can return: `fs.ErrorObjectNotFound`,
`errNoUpstreamsFound`, and abstract hard errors from the existence
filter (cancellation, backend outage, ...). -/
inductive PolicyError where
  | objectNotFound
  | noUpstreamsFound
  | filterFailed (code : Nat)
deriving DecidableEq, Repr

/-- One iteration of the shared reduction loop: keep the running best
`(minValue, bestCandidate)`, replacing it only when the candidate's metric
value is a strict improvement and the candidate is eligible
(`space < minFreeSpace && space > u.Opt.MinFreeSpace` in `lfs`;
`minNumObj > numObj` in `lno`, whose eligibility test is trivially true). -/
def bestStep {α : Type} (val : α → Int) (elig : α → Bool) :
    Int × Option α → α → Int × Option α :=
  fun (m, b) x => if val x < m ∧ elig x = true then (val x, some x) else (m, b)

/-- The shared reduction scan of `lno` / `lnoEntries` / `lfs` / `lfsEntries`:
fold `bestStep` over the (post-shuffle) candidate list starting from
`(math.MaxInt64, nil)`. -/
def bestScan {α : Type} (val : α → Int) (elig : α → Bool) (l : List α) :
    Int × Option α :=
  l.foldl (bestStep val elig) (maxInt64, none)

/-- `EpLfs` eligibility predicate: `space > int64(u.Opt.MinFreeSpace)`. -/
def lfsEligible (u : UpstreamFs) : Bool :=
  u.minFreeSpace < getFreeSpace u

/-- `EpLno.lno` (eplno.go lines 23-47) on the post-shuffle list: scan for the
least object count, then return the recorded best or
`fs.ErrorObjectNotFound` when none was recorded. -/
def lno (upstreams : List UpstreamFs) : Option UpstreamFs × Option PolicyError :=
  match (bestScan getNumObjects (fun _ => true) upstreams).2 with
  | none => (none, some PolicyError.objectNotFound)
  | some u => (some u, none)

/-- `EpLno.lnoEntries` (eplno.go lines 49-70) on the post-shuffle list.
Unlike its three siblings it performs NO nil check: it returns the scan's
recorded best (possibly nil) together with a nil error. -/
def lnoEntries (entries : List Entry) : Option Entry × Option PolicyError :=
  ((bestScan (fun e => getNumObjects e.upstreamFs) (fun _ => true) entries).2, none)

/-- `EpLfs.lfs` (eplfs lines 156-180) on the post-shuffle list: scan for the
least free space among candidates above their own threshold, then return the
recorded best or `errNoUpstreamsFound` when none was recorded. -/
def lfs (upstreams : List UpstreamFs) : Option UpstreamFs × Option PolicyError :=
  match (bestScan getFreeSpace lfsEligible upstreams).2 with
  | none => (none, some PolicyError.noUpstreamsFound)
  | some u => (some u, none)

/-- `EpLfs.lfsEntries` (eplfs lines 182-207) on the post-shuffle list. -/
def lfsEntries (entries : List Entry) : Option Entry × Option PolicyError :=
  match (bestScan (fun e => getFreeSpace e.upstreamFs)
      (fun e => lfsEligible e.upstreamFs) entries).2 with
  | none => (none, some PolicyError.noUpstreamsFound)
  | some e => (some e, none)

/-- `EpLno.Action`: run the existence filter (abstract collaborator); on a
filter error return `(nil, err)`; otherwise wrap the `lno` result as
`([]*upstream.Fs{u}, err)` - a one-element slice even when `u` is nil. -/
def EpLno.Action (filter : List UpstreamFs → Except PolicyError (List UpstreamFs))
    (upstreams : List UpstreamFs) : List (Option UpstreamFs) × Option PolicyError :=
  match filter upstreams with
  | .error e => ([], some e)
  | .ok l =>
    let r := lno l
    ([r.1], r.2)

/-- `EpLno.ActionEntries`: same shape over entries, using `lnoEntries`. -/
def EpLno.ActionEntries (filter : List Entry → Except PolicyError (List Entry))
    (entries : List Entry) : List (Option Entry) × Option PolicyError :=
  match filter entries with
  | .error e => ([], some e)
  | .ok l =>
    let r := lnoEntries l
    ([r.1], r.2)

/-- `EpLno.Create`: identical pipeline to `EpLno.Action`. -/
def EpLno.Create (filter : List UpstreamFs → Except PolicyError (List UpstreamFs))
    (upstreams : List UpstreamFs) : List (Option UpstreamFs) × Option PolicyError :=
  match filter upstreams with
  | .error e => ([], some e)
  | .ok l =>
    let r := lno l
    ([r.1], r.2)

/-- `EpLno.CreateEntries`: identical pipeline to `EpLno.ActionEntries`. -/
def EpLno.CreateEntries (filter : List Entry → Except PolicyError (List Entry))
    (entries : List Entry) : List (Option Entry) × Option PolicyError :=
  match filter entries with
  | .error e => ([], some e)
  | .ok l =>
    let r := lnoEntries l
    ([r.1], r.2)

/-- `EpLno.Search`: empty input short-circuits to `fs.ErrorObjectNotFound`
before the filter is consulted; otherwise filter then `lno`. -/
def EpLno.Search (filter : List UpstreamFs → Except PolicyError (List UpstreamFs))
    (upstreams : List UpstreamFs) : Option UpstreamFs × Option PolicyError :=
  if upstreams.isEmpty then (none, some PolicyError.objectNotFound)
  else
    match filter upstreams with
    | .error e => (none, some e)
    | .ok l => lno l

/-- `EpLno.SearchEntries`: empty input short-circuits to
`fs.ErrorObjectNotFound`; otherwise directly `lnoEntries` (no filter). -/
def EpLno.SearchEntries (entries : List Entry) : Option Entry × Option PolicyError :=
  if entries.isEmpty then (none, some PolicyError.objectNotFound)
  else lnoEntries entries

/-- `EpLfs.Action`: like `EpLno.Action` with the `lfs` reduction. -/
def EpLfs.Action (filter : List UpstreamFs → Except PolicyError (List UpstreamFs))
    (upstreams : List UpstreamFs) : List (Option UpstreamFs) × Option PolicyError :=
  match filter upstreams with
  | .error e => ([], some e)
  | .ok l =>
    let r := lfs l
    ([r.1], r.2)

/-- `EpLfs.ActionEntries`: like `EpLno.ActionEntries` with `lfsEntries`. -/
def EpLfs.ActionEntries (filter : List Entry → Except PolicyError (List Entry))
    (entries : List Entry) : List (Option Entry) × Option PolicyError :=
  match filter entries with
  | .error e => ([], some e)
  | .ok l =>
    let r := lfsEntries l
    ([r.1], r.2)

/-- `EpLfs.Create`: identical pipeline to `EpLfs.Action`. -/
def EpLfs.Create (filter : List UpstreamFs → Except PolicyError (List UpstreamFs))
    (upstreams : List UpstreamFs) : List (Option UpstreamFs) × Option PolicyError :=
  match filter upstreams with
  | .error e => ([], some e)
  | .ok l =>
    let r := lfs l
    ([r.1], r.2)

/-- `EpLfs.CreateEntries`: identical pipeline to `EpLfs.ActionEntries`. -/
def EpLfs.CreateEntries (filter : List Entry → Except PolicyError (List Entry))
    (entries : List Entry) : List (Option Entry) × Option PolicyError :=
  match filter entries with
  | .error e => ([], some e)
  | .ok l =>
    let r := lfsEntries l
    ([r.1], r.2)

/-- `EpLfs.Search`: empty input short-circuits to `fs.ErrorObjectNotFound`
before the filter is consulted; otherwise filter then `lfs`. -/
def EpLfs.Search (filter : List UpstreamFs → Except PolicyError (List UpstreamFs))
    (upstreams : List UpstreamFs) : Option UpstreamFs × Option PolicyError :=
  if upstreams.isEmpty then (none, some PolicyError.objectNotFound)
  else
    match filter upstreams with
    | .error e => (none, some e)
    | .ok l => lfs l

/-- `EpLfs.SearchEntries`: empty input short-circuits to
`fs.ErrorObjectNotFound`; otherwise directly `lfsEntries` (no filter). -/
def EpLfs.SearchEntries (entries : List Entry) : Option Entry × Option PolicyError :=
  if entries.isEmpty then (none, some PolicyError.objectNotFound)
  else lfsEntries entries


section ScanLemmas

variable {α : Type} (val : α → Int) (elig : α → Bool)

/-- Once the running best records a candidate, it stays recorded. -/
lemma foldl_bestStep_isSome (l : List α) :
    ∀ (m : Int) (b : α), (l.foldl (bestStep val elig) (m, some b)).2.isSome = true := by
  induction l with
  | nil => intro m b; rfl
  | cons a t ih =>
    intro m b
    simp only [List.foldl_cons, bestStep]
    split
    · exact ih _ _
    · exact ih _ _

/-- Unfold one scan step when the head candidate is recorded. -/
lemma bestScan_cons_pos (a : α) (l : List α)
    (h : val a < maxInt64 ∧ elig a = true) :
    bestScan val elig (a :: l) = l.foldl (bestStep val elig) (val a, some a) := by
  unfold bestScan
  rw [List.foldl_cons]
  congr 1
  simp only [bestStep]
  rw [if_pos h]

/-- Unfold one scan step when the head candidate is not recorded. -/
lemma bestScan_cons_neg (a : α) (l : List α)
    (h : ¬(val a < maxInt64 ∧ elig a = true)) :
    bestScan val elig (a :: l) = bestScan val elig l := by
  unfold bestScan
  rw [List.foldl_cons]
  congr 1
  simp only [bestStep]
  rw [if_neg h]

/-- Scanning onward from a recorded best `b`, the final recorded candidate is
either `b` itself (and nothing later is strictly better) or the first later
eligible candidate attaining the least eligible value strictly below
`val b`. -/
lemma foldl_bestStep_from (l : List α) :
    ∀ (b x : α),
    (l.foldl (bestStep val elig) (val b, some b)).2 = some x →
    (x = b ∧ ∀ y ∈ l, elig y = true → val b ≤ val y) ∨
    (∃ l1 l2, l = l1 ++ x :: l2 ∧ elig x = true ∧ val x < val b ∧
      (∀ y ∈ l1, elig y = true → val x < val y) ∧
      (∀ y ∈ l2, elig y = true → val x ≤ val y)) := by
  induction l with
  | nil =>
    intro b x hx
    left
    refine ⟨by cases hx; rfl, ?_⟩
    intro y hy
    cases hy
  | cons a t ih =>
    intro b x hx
    simp only [List.foldl_cons] at hx
    by_cases hcond : val a < val b ∧ elig a = true
    · rw [show bestStep val elig (val b, some b) a = (val a, some a) by
        simp only [bestStep]; rw [if_pos hcond]] at hx
      rcases ih a x hx with ⟨rfl, hall⟩ | ⟨t1, t2, rfl, hex, hvx, h1, h2⟩
      · right
        exact ⟨[], t, rfl, hcond.2, hcond.1,
          fun y hy => absurd hy (List.not_mem_nil y), hall⟩
      · right
        refine ⟨a :: t1, t2, rfl, hex, lt_trans hvx hcond.1, ?_, h2⟩
        intro y hy he
        rcases List.mem_cons.1 hy with rfl | hy2
        · exact hvx
        · exact h1 y hy2 he
    · rw [show bestStep val elig (val b, some b) a = (val b, some b) by
        simp only [bestStep]; rw [if_neg hcond]] at hx
      rcases ih b x hx with ⟨rfl, hall⟩ | ⟨t1, t2, rfl, hex, hvx, h1, h2⟩
      · left
        refine ⟨rfl, ?_⟩
        intro y hy he
        rcases List.mem_cons.1 hy with rfl | hy2
        · have hnot : ¬ val y < val x := fun hlt => hcond ⟨hlt, he⟩
          exact not_lt.mp hnot
        · exact hall y hy2 he
      · right
        refine ⟨a :: t1, t2, rfl, hex, hvx, ?_, h2⟩
        intro y hy he
        rcases List.mem_cons.1 hy with rfl | hy2
        · have hnot : ¬ val y < val b := fun hlt => hcond ⟨hlt, he⟩
          exact lt_of_lt_of_le hvx (not_lt.mp hnot)
        · exact h1 y hy2 he

/-- The property that `x` is the first candidate in scan order attaining the
least eligible metric value (and is itself eligible and below the
`math.MaxInt64` sentinel). -/
def firstEligMin (l : List α) (x : α) : Prop :=
  ∃ l1 l2, l = l1 ++ x :: l2 ∧ elig x = true ∧ val x < maxInt64 ∧
    (∀ y ∈ l1, elig y = true → val x < val y) ∧
    (∀ y ∈ l2, elig y = true → val x ≤ val y)

/-- Whenever the shared scan records a best candidate, that candidate is the
first in scan order attaining the least eligible metric value. -/
lemma bestScan_some_first (l : List α) :
    ∀ (x : α), (bestScan val elig l).2 = some x → firstEligMin val elig l x := by
  induction l with
  | nil => intro x hx; cases hx
  | cons a t ih =>
    intro x hx
    by_cases hcond : val a < maxInt64 ∧ elig a = true
    · rw [bestScan_cons_pos val elig a t hcond] at hx
      rcases foldl_bestStep_from val elig t a x hx with
        ⟨rfl, hall⟩ | ⟨t1, t2, rfl, hex, hvx, h1, h2⟩
      · exact ⟨[], t, rfl, hcond.2, hcond.1,
          fun y hy => absurd hy (List.not_mem_nil y), hall⟩
      · refine ⟨a :: t1, t2, rfl, hex, lt_trans hvx hcond.1, ?_, h2⟩
        intro y hy he
        rcases List.mem_cons.1 hy with rfl | hy2
        · exact hvx
        · exact h1 y hy2 he
    · rw [bestScan_cons_neg val elig a t hcond] at hx
      rcases ih x hx with ⟨t1, t2, rfl, hex, hm, h1, h2⟩
      refine ⟨a :: t1, t2, rfl, hex, hm, ?_, h2⟩
      intro y hy he
      rcases List.mem_cons.1 hy with rfl | hy2
      · have hnot : ¬ val y < maxInt64 := fun hlt => hcond ⟨hlt, he⟩
        exact lt_of_lt_of_le hm (not_lt.mp hnot)
      · exact h1 y hy2 he

/-- The shared scan records no best exactly when no candidate is both
eligible and strictly below the `math.MaxInt64` sentinel. -/
lemma bestScan_none_iff (l : List α) :
    (bestScan val elig l).2 = none ↔
      ∀ y ∈ l, ¬(val y < maxInt64 ∧ elig y = true) := by
  induction l with
  | nil => simp [bestScan]
  | cons a t ih =>
    by_cases hcond : val a < maxInt64 ∧ elig a = true
    · rw [bestScan_cons_pos val elig a t hcond]
      constructor
      · intro h
        exfalso
        have hs := foldl_bestStep_isSome val elig t (val a) a
        rw [h] at hs
        cases hs
      · intro h
        exact absurd hcond (h a (List.mem_cons_self a t))
    · rw [bestScan_cons_neg val elig a t hcond]
      constructor
      · intro h y hy
        rcases List.mem_cons.1 hy with rfl | hy2
        · exact hcond
        · exact ih.1 h y hy2
      · intro h
        exact ih.2 fun y hy => h y (List.mem_cons_of_mem a hy)

/-- A recorded best is a member of the scanned list. -/
lemma bestScan_some_mem (l : List α) (x : α)
    (h : (bestScan val elig l).2 = some x) : x ∈ l := by
  rcases bestScan_some_first val elig l x h with ⟨l1, l2, rfl, -, -, -, -⟩
  exact List.mem_append.2 (Or.inr (List.mem_cons_self x l2))

end ScanLemmas

/-- Inversion for `lno`: a non-nil first component is exactly a recorded scan best. -/
lemma lno_fst_some_iff (l : List UpstreamFs) (u : UpstreamFs) :
    (lno l).1 = some u ↔
      (bestScan getNumObjects (fun _ => true) l).2 = some u := by
  rcases h : (bestScan getNumObjects (fun _ => true) l).2 with _ | w
  · simp [lno, h]
  · simp [lno, h]

/-- Inversion for `lfs`: a non-nil first component is exactly a recorded scan best. -/
lemma lfs_fst_some_iff (l : List UpstreamFs) (u : UpstreamFs) :
    (lfs l).1 = some u ↔
      (bestScan getFreeSpace lfsEligible l).2 = some u := by
  rcases h : (bestScan getFreeSpace lfsEligible l).2 with _ | w
  · simp [lfs, h]
  · simp [lfs, h]

/-- Inversion for `lfsEntries`. -/
lemma lfsEntries_fst_some_iff (l : List Entry) (e : Entry) :
    (lfsEntries l).1 = some e ↔
      (bestScan (fun x => getFreeSpace x.upstreamFs)
        (fun x => lfsEligible x.upstreamFs) l).2 = some e := by
  rcases h : (bestScan (fun x => getFreeSpace x.upstreamFs)
      (fun x => lfsEligible x.upstreamFs) l).2 with _ | w
  · simp [lfsEntries, h]
  · simp [lfsEntries, h]

/-- `lno` reports its not-found error exactly when the scan recorded no best. -/
lemma lno_snd_eq (l : List UpstreamFs) :
    (lno l).2 = some PolicyError.objectNotFound ↔
      (bestScan getNumObjects (fun _ => true) l).2 = none := by
  rcases h : (bestScan getNumObjects (fun _ => true) l).2 with _ | w
  · simp [lno, h]
  · simp [lno, h]

/-- When `lno` reports an error its result upstream is nil. -/
lemma lno_error_fst_none (l : List UpstreamFs) (e : PolicyError)
    (h : (lno l).2 = some e) : (lno l).1 = none := by
  rcases hs : (bestScan getNumObjects (fun _ => true) l).2 with _ | w
  · simp [lno, hs]
  · rw [show (lno l).2 = none by simp [lno, hs]] at h
    cases h

/-- When `lfs` reports an error its result upstream is nil. -/
lemma lfs_error_fst_none (l : List UpstreamFs) (e : PolicyError)
    (h : (lfs l).2 = some e) : (lfs l).1 = none := by
  rcases hs : (bestScan getFreeSpace lfsEligible l).2 with _ | w
  · simp [lfs, hs]
  · rw [show (lfs l).2 = none by simp [lfs, hs]] at h
    cases h

/-- When `lfsEntries` reports an error its result entry is nil. -/
lemma lfsEntries_error_fst_none (l : List Entry) (e : PolicyError)
    (h : (lfsEntries l).2 = some e) : (lfsEntries l).1 = none := by
  rcases hs : (bestScan (fun x => getFreeSpace x.upstreamFs)
      (fun x => lfsEligible x.upstreamFs) l).2 with _ | w
  · simp [lfsEntries, hs]
  · rw [show (lfsEntries l).2 = none by simp [lfsEntries, hs]] at h
    cases h

/-- An eligible upstream whose effective free space is below the sentinel
reported a finite value strictly above its threshold. -/
lemma eligible_finite_reported (u : UpstreamFs) (helig : lfsEligible u = true)
    (hm : getFreeSpace u < maxInt64) :
    ∃ v, u.freeSpaceQuery = QueryResult.ok v ∧ u.minFreeSpace < v := by
  have hlt : u.minFreeSpace < getFreeSpace u := by
    simpa [lfsEligible] using helig
  cases hq : u.freeSpaceQuery with
  | ok v =>
    refine ⟨v, rfl, ?_⟩
    rw [show getFreeSpace u = v by simp [getFreeSpace, hq]] at hlt
    exact hlt
  | err =>
    rw [show getFreeSpace u = maxInt64 by simp [getFreeSpace, hq]] at hm
    exact absurd hm (lt_irrefl _)

/-- Claim C1: any upstream returned on success by the least-free-space
reductions (`lfs` on handles, `lfsEntries` on entries) reported a free-space
value strictly greater than its own configured MinFreeSpace threshold; an
upstream at or below its threshold is never returned. -/
theorem C1_lfs_threshold (l : List UpstreamFs) (el : List Entry)
    (u : UpstreamFs) (e : Entry) :
    ((lfs l).1 = some u →
      ∃ v, u.freeSpaceQuery = QueryResult.ok v ∧ u.minFreeSpace < v) ∧
    ((lfsEntries el).1 = some e →
      ∃ v, e.upstreamFs.freeSpaceQuery = QueryResult.ok v ∧
        e.upstreamFs.minFreeSpace < v) := by
  constructor
  · intro h
    rcases bestScan_some_first getFreeSpace lfsEligible l u
        ((lfs_fst_some_iff l u).1 h) with ⟨l1, l2, -, helig, hm, -, -⟩
    exact eligible_finite_reported u helig hm
  · intro h
    rcases bestScan_some_first (fun x => getFreeSpace x.upstreamFs)
        (fun x => lfsEligible x.upstreamFs) el e
        ((lfsEntries_fst_some_iff el e).1 h) with ⟨l1, l2, -, helig, hm, -, -⟩
    exact eligible_finite_reported e.upstreamFs helig hm

/-- Claim C1 witness at a concrete input. -/
theorem C1_lfs_threshold_witness :
    ∃ v, (UpstreamFs.mk "b" (QueryResult.ok 0) (QueryResult.ok 50) 10).freeSpaceQuery =
        QueryResult.ok v ∧
      (UpstreamFs.mk "b" (QueryResult.ok 0) (QueryResult.ok 50) 10).minFreeSpace < v :=
  (C1_lfs_threshold
    [UpstreamFs.mk "a" (QueryResult.ok 0) (QueryResult.ok 100) 10,
     UpstreamFs.mk "b" (QueryResult.ok 0) (QueryResult.ok 50) 10]
    [] (UpstreamFs.mk "b" (QueryResult.ok 0) (QueryResult.ok 50) 10)
    (Entry.mk 0 (UpstreamFs.mk "z" (QueryResult.ok 0) (QueryResult.ok 0) 0))).1
    (by decide)

/-- Claim C2: on success, the upstream returned by the least-object-count
reduction has object count (with fallback 0 on a failed query) less than or
equal to that of every candidate in the pre-shuffle input list. -/
theorem C2_lno_minimal (given shuffled : List UpstreamFs) (u : UpstreamFs)
    (hperm : shuffled.Perm given) (h : (lno shuffled).1 = some u) :
    ∀ v ∈ given, getNumObjects u ≤ getNumObjects v := by
  intro v hv
  rcases bestScan_some_first getNumObjects (fun _ => true) shuffled u
      ((lno_fst_some_iff shuffled u).1 h) with ⟨l1, l2, hdec, -, -, h1, h2⟩
  have hv2 : v ∈ shuffled := hperm.mem_iff.2 hv
  rw [hdec] at hv2
  rcases List.mem_append.1 hv2 with hvl1 | hvrest
  · exact le_of_lt (h1 v hvl1 rfl)
  · rcases List.mem_cons.1 hvrest with rfl | hvl2
    · exact le_refl _
    · exact h2 v hvl2 rfl

/-- Claim C2 witness at a concrete input. -/
theorem C2_lno_minimal_witness :
    getNumObjects (UpstreamFs.mk "b" (QueryResult.ok 3) (QueryResult.ok 0) 0) ≤
      getNumObjects (UpstreamFs.mk "a" (QueryResult.ok 5) (QueryResult.ok 0) 0) :=
  C2_lno_minimal
    [UpstreamFs.mk "a" (QueryResult.ok 5) (QueryResult.ok 0) 0,
     UpstreamFs.mk "b" (QueryResult.ok 3) (QueryResult.ok 0) 0]
    [UpstreamFs.mk "b" (QueryResult.ok 3) (QueryResult.ok 0) 0,
     UpstreamFs.mk "a" (QueryResult.ok 5) (QueryResult.ok 0) 0]
    (UpstreamFs.mk "b" (QueryResult.ok 3) (QueryResult.ok 0) 0)
    (List.Perm.swap (UpstreamFs.mk "a" (QueryResult.ok 5) (QueryResult.ok 0) 0)
      (UpstreamFs.mk "b" (QueryResult.ok 3) (QueryResult.ok 0) 0) [])
    (by decide)
    (UpstreamFs.mk "a" (QueryResult.ok 5) (QueryResult.ok 0) 0)
    (by decide)

/-- Claim C3 counterexample: a sole candidate whose free-space query errors is
NOT selected - `lfs` returns the no-upstreams error (the shuffle of a
one-element list is the identity, so this covers every execution),
contradicting "it may still be selected if it is the only candidate". -/
theorem C3_errored_cex :
    lfs [UpstreamFs.mk "e" (QueryResult.ok 0) QueryResult.err 0] =
      (none, some PolicyError.noUpstreamsFound) := by
  decide

/-- Claim C3 (amended): an upstream whose free-space query errors (treated as
infinite, i.e. MaxInt64, free space) is never selected at all - the strict
comparison against the MaxInt64-initial running best can never fire - and
when every candidate's query errors the reduction returns the no-upstreams
error. -/
theorem C3_errored_never_selected (l : List UpstreamFs) (u : UpstreamFs) :
    ((lfs l).1 = some u → u.freeSpaceQuery ≠ QueryResult.err) ∧
    ((∀ w ∈ l, w.freeSpaceQuery = QueryResult.err) →
      lfs l = (none, some PolicyError.noUpstreamsFound)) := by
  constructor
  · intro h hq
    rcases bestScan_some_first getFreeSpace lfsEligible l u
        ((lfs_fst_some_iff l u).1 h) with ⟨-, -, -, -, hm, -, -⟩
    rw [show getFreeSpace u = maxInt64 by simp [getFreeSpace, hq]] at hm
    exact lt_irrefl _ hm
  · intro hall
    have hnone : (bestScan getFreeSpace lfsEligible l).2 = none := by
      rw [bestScan_none_iff]
      intro y hy hcontra
      rw [show getFreeSpace y = maxInt64 by simp [getFreeSpace, hall y hy]]
        at hcontra
      exact lt_irrefl _ hcontra.1
    unfold lfs
    rw [hnone]

/-- Claim C3 witness at a concrete input: a successfully selected upstream
indeed did not error. -/
theorem C3_errored_never_selected_witness :
    (UpstreamFs.mk "a" (QueryResult.ok 0) (QueryResult.ok 5) 1).freeSpaceQuery ≠
      QueryResult.err :=
  (C3_errored_never_selected
    [UpstreamFs.mk "a" (QueryResult.ok 0) (QueryResult.ok 5) 1]
    (UpstreamFs.mk "a" (QueryResult.ok 0) (QueryResult.ok 5) 1)).1 (by decide)

/-- Claim C4, code evaluated at the failing input: when no best is recorded,
`lno`, `lfs` and `lfsEntries` return their policy-specific error, but
`lnoEntries` (which has no nil check) returns a nil entry with a nil error. -/
theorem C4_no_best_behaviour :
    lnoEntries ([] : List Entry) = (none, none) ∧
    lno ([] : List UpstreamFs) = (none, some PolicyError.objectNotFound) ∧
    lfs ([] : List UpstreamFs) = (none, some PolicyError.noUpstreamsFound) ∧
    lfsEntries ([] : List Entry) = (none, some PolicyError.noUpstreamsFound) :=
  ⟨rfl, rfl, rfl, rfl⟩

/-- Claim C5 counterexample: when the reduction fails (here: the filter
returned an empty candidate list), `EpLno.Action` returns the reduction error
together with a NON-empty one-element result list containing the nil
upstream, contradicting "no non-empty result collection accompanies the
error". -/
theorem C5_partial_result_cex :
    (EpLno.Action (fun _ => Except.ok []) ([] : List UpstreamFs)).2 =
        some PolicyError.objectNotFound ∧
    (EpLno.Action (fun _ => Except.ok []) ([] : List UpstreamFs)).1 ≠ [] :=
  ⟨rfl, by decide⟩

/-- Claim C5 (amended): across both policies and both call shapes, Action and
Create return a hard filter error unchanged with an empty (nil) result list,
and return a hard reduction error unchanged accompanied by a one-element
result list containing the nil upstream/entry (the `lnoEntries` reduction
never reports an error, see C4). -/
theorem C5_error_propagation
    (fU : List UpstreamFs → Except PolicyError (List UpstreamFs))
    (fE : List Entry → Except PolicyError (List Entry))
    (lU m : List UpstreamFs) (lE mE : List Entry) (e : PolicyError) :
    (fU lU = Except.error e →
      EpLno.Action fU lU = ([], some e) ∧ EpLno.Create fU lU = ([], some e) ∧
      EpLfs.Action fU lU = ([], some e) ∧ EpLfs.Create fU lU = ([], some e)) ∧
    (fE lE = Except.error e →
      EpLno.ActionEntries fE lE = ([], some e) ∧
      EpLno.CreateEntries fE lE = ([], some e) ∧
      EpLfs.ActionEntries fE lE = ([], some e) ∧
      EpLfs.CreateEntries fE lE = ([], some e)) ∧
    (fU lU = Except.ok m → (lno m).2 = some e →
      EpLno.Action fU lU = ([none], some e) ∧
      EpLno.Create fU lU = ([none], some e)) ∧
    (fU lU = Except.ok m → (lfs m).2 = some e →
      EpLfs.Action fU lU = ([none], some e) ∧
      EpLfs.Create fU lU = ([none], some e)) ∧
    (fE lE = Except.ok mE → (lfsEntries mE).2 = some e →
      EpLfs.ActionEntries fE lE = ([none], some e) ∧
      EpLfs.CreateEntries fE lE = ([none], some e)) := by
  refine ⟨?_, ?_, ?_, ?_, ?_⟩
  · intro h
    exact ⟨by simp [EpLno.Action, h], by simp [EpLno.Create, h],
      by simp [EpLfs.Action, h], by simp [EpLfs.Create, h]⟩
  · intro h
    exact ⟨by simp [EpLno.ActionEntries, h], by simp [EpLno.CreateEntries, h],
      by simp [EpLfs.ActionEntries, h], by simp [EpLfs.CreateEntries, h]⟩
  · intro h h2
    have h1 := lno_error_fst_none m e h2
    exact ⟨by simp [EpLno.Action, h, h1, h2], by simp [EpLno.Create, h, h1, h2]⟩
  · intro h h2
    have h1 := lfs_error_fst_none m e h2
    exact ⟨by simp [EpLfs.Action, h, h1, h2], by simp [EpLfs.Create, h, h1, h2]⟩
  · intro h h2
    have h1 := lfsEntries_error_fst_none mE e h2
    exact ⟨by simp [EpLfs.ActionEntries, h, h1, h2],
      by simp [EpLfs.CreateEntries, h, h1, h2]⟩

/-- Claim C5 witness at a concrete input: a hard filter error comes back
unchanged with an empty result. -/
theorem C5_error_propagation_witness :
    EpLfs.Create (fun _ => Except.error (PolicyError.filterFailed 7))
        ([] : List UpstreamFs) =
      ([], some (PolicyError.filterFailed 7)) :=
  ((C5_error_propagation (fun _ => Except.error (PolicyError.filterFailed 7))
    (fun _ => Except.ok []) [] [] [] [] (PolicyError.filterFailed 7)).1
    rfl).2.2.2

/-- Claim C6 counterexample: a non-empty candidate list whose single upstream
reports exactly MaxInt64 objects makes `lno` return the not-found error, so
the error does not coincide with empty input. -/
theorem C6_nonempty_error_cex :
    lno [UpstreamFs.mk "m" (QueryResult.ok 9223372036854775807)
        (QueryResult.ok 0) 0] =
      (none, some PolicyError.objectNotFound) ∧
    [UpstreamFs.mk "m" (QueryResult.ok 9223372036854775807)
        (QueryResult.ok 0) 0] ≠ ([] : List UpstreamFs) :=
  ⟨by decide, by decide⟩

/-- Claim C6 (amended): `lno` returns its not-found error iff no candidate
has an effective object count (fallback 0 on a failed query) strictly below
MaxInt64 - that is, the input is empty or every candidate reports exactly
MaxInt64 objects; every list containing some candidate with count below
MaxInt64 (in particular any erroring candidate) yields a winner. -/
theorem C6_lno_error_iff (l : List UpstreamFs) :
    ((lno l).2 = some PolicyError.objectNotFound ↔
      ∀ u ∈ l, ¬(getNumObjects u < maxInt64)) ∧
    ((∃ u ∈ l, getNumObjects u < maxInt64) →
      ∃ u, (lno l).1 = some u ∧ (lno l).2 = none) := by
  have hbridge := lno_snd_eq l
  have hnone := bestScan_none_iff getNumObjects (fun _ : UpstreamFs => true) l
  constructor
  · rw [hbridge, hnone]
    constructor
    · intro h u hu hlt
      exact h u hu ⟨hlt, rfl⟩
    · intro h u hu hc
      exact h u hu hc.1
  · rintro ⟨u, hu, hlt⟩
    rcases hs : (bestScan getNumObjects (fun _ : UpstreamFs => true) l).2
        with _ | w
    · exact absurd ⟨hlt, rfl⟩ (hnone.1 hs u hu)
    · exact ⟨w, by simp [lno, hs], by simp [lno, hs]⟩

/-- Claim C6 witness at a concrete input: a candidate below the sentinel
produces no error. -/
theorem C6_lno_error_iff_witness :
    (lno [UpstreamFs.mk "w" (QueryResult.ok 2) (QueryResult.ok 0) 0]).2 ≠
      some PolicyError.objectNotFound := by
  intro hc
  have h := (C6_lno_error_iff
    [UpstreamFs.mk "w" (QueryResult.ok 2) (QueryResult.ok 0) 0]).1.1 hc
    (UpstreamFs.mk "w" (QueryResult.ok 2) (QueryResult.ok 0) 0)
    (List.mem_cons_self _ _)
  exact h (by decide)

/-- Claim C7: on success, each reduction returns the first candidate in
post-shuffle scan order attaining the minimal (eligible) metric value: every
earlier eligible candidate has a strictly larger value and every later
eligible candidate has a larger-or-equal value, so a later candidate with an
equal value never displaces the winner. -/
theorem C7_first_of_ties (lN lF : List UpstreamFs) (u w : UpstreamFs) :
    ((lno lN).1 = some u →
      ∃ l1 l2, lN = l1 ++ u :: l2 ∧
        (∀ v ∈ l1, getNumObjects u < getNumObjects v) ∧
        (∀ v ∈ l2, getNumObjects u ≤ getNumObjects v)) ∧
    ((lfs lF).1 = some w →
      ∃ l1 l2, lF = l1 ++ w :: l2 ∧ lfsEligible w = true ∧
        (∀ v ∈ l1, lfsEligible v = true → getFreeSpace w < getFreeSpace v) ∧
        (∀ v ∈ l2, lfsEligible v = true → getFreeSpace w ≤ getFreeSpace v)) := by
  constructor
  · intro h
    rcases bestScan_some_first getNumObjects (fun _ => true) lN u
        ((lno_fst_some_iff lN u).1 h) with ⟨l1, l2, hdec, -, -, h1, h2⟩
    exact ⟨l1, l2, hdec, fun v hv => h1 v hv rfl, fun v hv => h2 v hv rfl⟩
  · intro h
    rcases bestScan_some_first getFreeSpace lfsEligible lF w
        ((lfs_fst_some_iff lF w).1 h) with ⟨l1, l2, hdec, helig, -, h1, h2⟩
    exact ⟨l1, l2, hdec, helig, h1, h2⟩

/-- Claim C7 witness at a concrete input: with counts 5, 3, 3 the first
candidate with count 3 wins and the decomposition exists. -/
theorem C7_first_of_ties_witness :
    ∃ l1 l2,
      [UpstreamFs.mk "a" (QueryResult.ok 5) (QueryResult.ok 0) 0,
       UpstreamFs.mk "b" (QueryResult.ok 3) (QueryResult.ok 0) 0,
       UpstreamFs.mk "c" (QueryResult.ok 3) (QueryResult.ok 0) 0] =
        l1 ++ UpstreamFs.mk "b" (QueryResult.ok 3) (QueryResult.ok 0) 0 :: l2 ∧
      (∀ v ∈ l1,
        getNumObjects (UpstreamFs.mk "b" (QueryResult.ok 3) (QueryResult.ok 0) 0) <
          getNumObjects v) ∧
      (∀ v ∈ l2,
        getNumObjects (UpstreamFs.mk "b" (QueryResult.ok 3) (QueryResult.ok 0) 0) ≤
          getNumObjects v) :=
  (C7_first_of_ties
    [UpstreamFs.mk "a" (QueryResult.ok 5) (QueryResult.ok 0) 0,
     UpstreamFs.mk "b" (QueryResult.ok 3) (QueryResult.ok 0) 0,
     UpstreamFs.mk "c" (QueryResult.ok 3) (QueryResult.ok 0) 0]
    [] (UpstreamFs.mk "b" (QueryResult.ok 3) (QueryResult.ok 0) 0)
    (UpstreamFs.mk "z" (QueryResult.ok 0) (QueryResult.ok 0) 0)).1 (by decide)

/-- Claim C8, code evaluated at the failing input: `EpLno.ActionEntries` with
an empty filtered entry list SUCCEEDS (nil error) with a one-element result
list containing a nil entry rather than a selected entry (consequence of the
missing nil check in `lnoEntries`, see C4). -/
theorem C8_nil_entry_success :
    EpLno.ActionEntries (fun _ => Except.ok []) ([] : List Entry) =
      ([none], none) :=
  rfl

/-- Claim C9: for both policies, Search and SearchEntries on an empty
candidate list return `fs.ErrorObjectNotFound` immediately: the result is the
same for every existence filter (so the filter is never consulted) and no
metric value of any upstream can influence it. -/
theorem C9_empty_search
    (f g : List UpstreamFs → Except PolicyError (List UpstreamFs)) :
    EpLno.Search f [] = (none, some PolicyError.objectNotFound) ∧
    EpLfs.Search g [] = (none, some PolicyError.objectNotFound) ∧
    EpLno.SearchEntries [] = (none, some PolicyError.objectNotFound) ∧
    EpLfs.SearchEntries [] = (none, some PolicyError.objectNotFound) :=
  ⟨rfl, rfl, rfl, rfl⟩

/-- Claim C10: whenever a reduction succeeds, the returned upstream/entry is
an element of the (pre-shuffle) candidate list it was given: the shuffle only
permutes the list and the scan only records list members. -/
theorem C10_winner_is_member (gU sU : List UpstreamFs) (gE sE : List Entry)
    (u : UpstreamFs) (e : Entry) (hU : sU.Perm gU) (hE : sE.Perm gE) :
    ((lno sU).1 = some u → u ∈ gU) ∧
    ((lfs sU).1 = some u → u ∈ gU) ∧
    ((lnoEntries sE).1 = some e → e ∈ gE) ∧
    ((lfsEntries sE).1 = some e → e ∈ gE) := by
  refine ⟨?_, ?_, ?_, ?_⟩
  · intro h
    exact hU.mem_iff.1 (bestScan_some_mem getNumObjects (fun _ => true) sU u
      ((lno_fst_some_iff sU u).1 h))
  · intro h
    exact hU.mem_iff.1 (bestScan_some_mem getFreeSpace lfsEligible sU u
      ((lfs_fst_some_iff sU u).1 h))
  · intro h
    exact hE.mem_iff.1 (bestScan_some_mem (fun x : Entry => getNumObjects x.upstreamFs)
      (fun _ => true) sE e h)
  · intro h
    exact hE.mem_iff.1 (bestScan_some_mem (fun x => getFreeSpace x.upstreamFs)
      (fun x => lfsEligible x.upstreamFs) sE e
      ((lfsEntries_fst_some_iff sE e).1 h))

/-- Claim C10 witness at a concrete input. -/
theorem C10_winner_is_member_witness :
    UpstreamFs.mk "b" (QueryResult.ok 3) (QueryResult.ok 0) 0 ∈
      [UpstreamFs.mk "a" (QueryResult.ok 5) (QueryResult.ok 0) 0,
       UpstreamFs.mk "b" (QueryResult.ok 3) (QueryResult.ok 0) 0] :=
  (C10_winner_is_member
    [UpstreamFs.mk "a" (QueryResult.ok 5) (QueryResult.ok 0) 0,
     UpstreamFs.mk "b" (QueryResult.ok 3) (QueryResult.ok 0) 0]
    [UpstreamFs.mk "b" (QueryResult.ok 3) (QueryResult.ok 0) 0,
     UpstreamFs.mk "a" (QueryResult.ok 5) (QueryResult.ok 0) 0]
    [] []
    (UpstreamFs.mk "b" (QueryResult.ok 3) (QueryResult.ok 0) 0)
    (Entry.mk 0 (UpstreamFs.mk "z" (QueryResult.ok 0) (QueryResult.ok 0) 0))
    (List.Perm.swap (UpstreamFs.mk "a" (QueryResult.ok 5) (QueryResult.ok 0) 0)
      (UpstreamFs.mk "b" (QueryResult.ok 3) (QueryResult.ok 0) 0) [])
    (List.Perm.refl [])).1 (by decide)
